import Mathlib

/-
Verification of the PDFCraft.Pro job-orchestration core.

Shallow embedding of the Python sources:
  backend/models/processing.py      (JobStatus, ProcessingOptions, ProcessingJob, ProcessingResult)
  backend/services/pdf_processor.py (PDFProcessorService: create_job, _process_job, _select_engine,
                                     the operation handlers and the global concurrency semaphore)
  backend/services/libreoffice_processor.py (LibreOfficeProcessor: convert_pdf_to_ppt,
                                     _convert_with_libreoffice, _convert_pdf_to_pptx_alternative,
                                     _validate_pptx_file)
  backend/services/auth_service.py  (AuthenticationService.check_rate_limit / consume_rate_limit)

Wall-clock time is modelled in whole seconds as Nat.  Python dictionaries are
modelled as association lists with last-write-wins update.  uuid4 job ids are
modelled by a fresh-counter id supply.  Cooperative-scheduler interleaving is
modelled by recording the observable (status, progress) snapshots of a job at
each suspension (await) point of its processing task.
-/

namespace PDFCraft

/-! ### String containment, as used by the Python `in` operator on str -/

def leadsWith : List Char → List Char → Bool
  | [], _ => true
  | _ :: _, [] => false
  | a :: as, b :: bs => (a = b : Bool) && leadsWith as bs

def occursIn (pat : List Char) : List Char → Bool
  | [] => leadsWith pat []
  | c :: cs => leadsWith pat (c :: cs) || occursIn pat cs

/-- Python `pat in s` for strings. -/
def hasSubstr (s pat : String) : Bool := occursIn pat.data s.data

/-! ### Association lists mirroring Python dict lookup / assignment -/

def alook {α β : Type} [DecidableEq α] : List (α × β) → α → Option β
  | [], _ => none
  | (k, v) :: t, a => if k = a then some v else alook t a

def aset {α β : Type} [DecidableEq α] : List (α × β) → α → β → List (α × β)
  | [], a, b => [(a, b)]
  | (k, v) :: t, a, b => if k = a then (a, b) :: t else (k, v) :: aset t a b

/-! ### models/processing.py -/

inductive JobStatus where
  | queued
  | processing
  | completed
  | failed
  | cancelled
deriving DecidableEq, BEq

/-- ProcessingOptions from models/processing.py (the fields the orchestration
core reads; `split_options : Dict[str, Any]` has no Lean counterpart and is
not read by any modelled code path). -/
structure ProcessingOptions where
  operation : String := "optimize"
  output_format : Option String := none
  page_range : Option String := none
  page_count : Option Nat := none
  quality : Option String := some "medium"
  compression_level : Option Nat := none
  require_enterprise_compliance : Bool := false
  preserve_metadata : Bool := true
  optimize_for_web : Bool := false
  merge_files : Option (List String) := none
deriving DecidableEq

structure ProcessingResult where
  success : Bool
  output_path : Option String := none
  pages_processed : Nat := 0
  operation_performed : String := ""
  engine_used : String := ""
  size_reduction_bytes : Option Int := none
deriving DecidableEq

structure ProcessingJob where
  id : Nat
  filename : String
  file_path : String
  options : ProcessingOptions
  status : JobStatus := .queued
  progress : Nat := 0
  file_size_bytes : Nat := 0
  result : Option ProcessingResult := none
  error : Option String := none
deriving DecidableEq

/-! ### pdf_processor.py: engine selection (_select_engine) -/

inductive ProcessingEngine where
  | mupdf
  | pdfium
deriving DecidableEq

structure EngineAvail where
  mupdf_available : Bool
  pdfium_available : Bool
deriving DecidableEq

def engineAvailable (a : EngineAvail) : ProcessingEngine → Bool
  | .mupdf => a.mupdf_available
  | .pdfium => a.pdfium_available

def noEngineMsg : String := "No PDF processing engine available"

/-- PDFProcessorService._select_engine (pdf_processor.py lines 180-195). -/
def selectEngine (a : EngineAvail) (opts : ProcessingOptions) : Except String ProcessingEngine :=
  if opts.require_enterprise_compliance && a.pdfium_available then .ok .pdfium
  else if a.mupdf_available then .ok .mupdf
  else if a.pdfium_available then .ok .pdfium
  else .error noEngineMsg

/-! ### pdf_processor.py: operation dispatch (_process_job lines 142-153) -/

inductive Handler where
  | merge
  | split
  | compress
  | convert
  | optimize
deriving DecidableEq

def dispatch (op : String) : Handler :=
  if op = "merge" then .merge
  else if op = "split" then .split
  else if op = "compress" then .compress
  else if op = "convert" then .convert
  else .optimize

def handlerName : Handler → String
  | .merge => "merge"
  | .split => "split"
  | .compress => "compress"
  | .convert => "convert"
  | .optimize => "optimize"

def engineName : ProcessingEngine → String
  | .mupdf => "mupdf"
  | .pdfium => "pdfium"

/-! ### pdf_processor.py: handler execution traces

Each operation handler is flattened into its sequence of events:
`write p` is an assignment `job.progress = p`, `pause` is an await point
(asyncio.sleep / suspension observable by a concurrent status query), and
`fallible` is an external call that may raise (the fitz operations inside
_compress_pdf_mupdf, whose failure the orchestrator turns into a FAILED job).
The program never cancels its processing tasks, so the sleeps themselves
cannot fail. -/

inductive Ev where
  | write (p : Nat)
  | pause
  | fallible
deriving DecidableEq

/-- _merge_pdfs: sleep, then progress 25/50/75/90 each followed by a sleep,
then progress 100 with no sleep. -/
def mergeEvents : List Ev :=
  [.pause, .write 25, .pause, .write 50, .pause, .write 75, .pause, .write 90, .pause, .write 100]

/-- _split_pdf: ten iterations of progress (i+1)*10 each followed by a sleep
(including after the final write of 100). -/
def splitEvents : List Ev :=
  [.write 10, .pause, .write 20, .pause, .write 30, .pause, .write 40, .pause,
   .write 50, .pause, .write 60, .pause, .write 70, .pause, .write 80, .pause,
   .write 90, .pause, .write 100, .pause]

/-- _compress_pdf_mupdf: fitz.open, progress 10, progress 30, doc.save,
progress 80, output stat, progress 100 (no awaits at all). -/
def compressMupdfEvents : List Ev :=
  [.fallible, .write 10, .write 30, .fallible, .write 80, .fallible, .write 100]

/-- _compress_pdf_fallback: progress 20/40/60/80/95 each followed by a sleep,
then progress 100. -/
def compressFallbackEvents : List Ev :=
  [.write 20, .pause, .write 40, .pause, .write 60, .pause, .write 80, .pause,
   .write 95, .pause, .write 100]

/-- _convert_pdf: sleep, then progress 15/35/55/75/90 each followed by a
sleep, then progress 100. -/
def convertEvents : List Ev :=
  [.pause, .write 15, .pause, .write 35, .pause, .write 55, .pause, .write 75, .pause,
   .write 90, .pause, .write 100]

/-- _optimize_pdf: sleep, then progress 30/60/90 each followed by a sleep,
then progress 100. -/
def optimizeEvents : List Ev :=
  [.pause, .write 30, .pause, .write 60, .pause, .write 90, .pause, .write 100]

/-- _compress_pdf chooses the real MuPDF path only when the selected engine is
MuPDF and MuPDF is available; every other handler is unconditional. -/
def handlerEvents : Handler → ProcessingEngine → Bool → List Ev
  | .merge, _, _ => mergeEvents
  | .split, _, _ => splitEvents
  | .compress, .mupdf, true => compressMupdfEvents
  | .compress, .mupdf, false => compressFallbackEvents
  | .compress, .pdfium, _ => compressFallbackEvents
  | .convert, _, _ => convertEvents
  | .optimize, _, _ => optimizeEvents

/-- Result of running a handler event list: the progress writes performed, the
progress values observable at each suspension point, and whether the handler
returned normally. -/
structure RunOut where
  writes : List Nat
  observed : List Nat
  ok : Bool
deriving DecidableEq

/-- Execute an event list.  `failAt = some k` makes the k-th fallible event
raise; the run stops there with `ok := false`.  The current progress value is
threaded so that each pause records what a concurrent observer reads. -/
def runH : List Ev → Option Nat → Nat → RunOut
  | [], _, _ => ⟨[], [], true⟩
  | .write q :: evs, f, _ =>
    let r := runH evs f q
    ⟨q :: r.writes, r.observed, r.ok⟩
  | .pause :: evs, f, p =>
    let r := runH evs f p
    ⟨r.writes, p :: r.observed, r.ok⟩
  | .fallible :: evs, f, p =>
    match f with
    | none => runH evs none p
    | some 0 => ⟨[], [], false⟩
    | some (n + 1) => runH evs (some n) p

def evWrites : List Ev → List Nat
  | [] => []
  | .write q :: t => q :: evWrites t
  | .pause :: t => evWrites t
  | .fallible :: t => evWrites t

def hasFallibleEv : List Ev → Bool
  | [] => false
  | .fallible :: _ => true
  | .write _ :: t => hasFallibleEv t
  | .pause :: t => hasFallibleEv t

/-! ### pdf_processor.py: one run of _process_job -/

/-- The data determining one execution of _process_job for a job: the engine
availability flags of the service, the job options, which (if any) external
call inside the handler raises, and the page count fitz reports for the
opened document. -/
structure JobRun where
  avail : EngineAvail
  options : ProcessingOptions
  failAt : Option Nat
  docPages : Nat
deriving DecidableEq

def jobRunOut (r : JobRun) : RunOut :=
  match selectEngine r.avail r.options with
  | .error _ => ⟨[], [], false⟩
  | .ok eng =>
    runH (handlerEvents (dispatch r.options.operation) eng r.avail.mupdf_available) r.failAt 0

def jobFinalStatus (r : JobRun) : JobStatus :=
  if (jobRunOut r).ok then .completed else .failed

def jobFinalProgress (r : JobRun) : Nat :=
  (jobRunOut r).writes.getLastD 0

def jobResultPages (h : Handler) (r : JobRun) : Nat :=
  match h with
  | .split => r.options.page_count.getD 10
  | .compress =>
    if r.avail.mupdf_available then r.docPages else r.options.page_count.getD 1
  | _ => r.options.page_count.getD 1

/-- The ProcessingResult attached on the PROCESSING to COMPLETED transition
(lines 163-167); none is attached on failure. -/
def jobResult (r : JobRun) : Option ProcessingResult :=
  match selectEngine r.avail r.options with
  | .error _ => none
  | .ok eng =>
    let h := dispatch r.options.operation
    if (runH (handlerEvents h eng r.avail.mupdf_available) r.failAt 0).ok then
      some { success := true, pages_processed := jobResultPages h r,
             operation_performed := handlerName h, engine_used := engineName eng }
    else none

/-- Observable (status, progress) snapshots of one job over its lifetime:
(QUEUED, 0) while the task waits for the semaphore, one (PROCESSING, p)
snapshot per handler suspension point, then the terminal state (which stays
observable forever). -/
def processJobTrace (r : JobRun) : List (JobStatus × Nat) :=
  (JobStatus.queued, 0) ::
    ((jobRunOut r).observed.map (fun p => (JobStatus.processing, p)) ++
      [(jobFinalStatus r, jobFinalProgress r)])

def traceStatuses (r : JobRun) : List JobStatus :=
  (processJobTrace r).map Prod.fst

/-- The sequence of assignments to job.status made by the code: QUEUED at
create_job, PROCESSING first thing inside the try block (line 135), then
exactly one terminal assignment (line 164 or line 174). -/
def jobStatusWrites (r : JobRun) : List JobStatus :=
  [JobStatus.queued, JobStatus.processing, jobFinalStatus r]

/-! ### Job state machine vocabulary (spec section 4.4) -/

def isTerminal : JobStatus → Bool
  | .completed => true
  | .failed => true
  | .cancelled => true
  | .queued => false
  | .processing => false

def statusRank : JobStatus → Nat
  | .queued => 0
  | .processing => 1
  | .completed => 2
  | .failed => 2
  | .cancelled => 2

def stepOk : JobStatus → JobStatus → Bool
  | .queued, .processing => true
  | .processing, .completed => true
  | .processing, .failed => true
  | _, _ => false

def chainOk : List JobStatus → Bool
  | [] => true
  | [_] => true
  | a :: b :: t => stepOk a b && chainOk (b :: t)

def monoRank : List JobStatus → Bool
  | [] => true
  | [_] => true
  | a :: b :: t => Nat.ble (statusRank a) (statusRank b) && monoRank (b :: t)

def terminalOnlyLast : List JobStatus → Bool
  | [] => true
  | [_] => true
  | a :: b :: t => !isTerminal a && terminalOnlyLast (b :: t)

def containsStatus : List JobStatus → JobStatus → Bool
  | [], _ => false
  | a :: t, x => if a = x then true else containsStatus t x

def nonDecr : List Nat → Bool
  | [] => true
  | [_] => true
  | a :: b :: t => Nat.ble a b && nonDecr (b :: t)

/-! ### pdf_processor.py: the global concurrency gate

PDFProcessorService.__init__ creates asyncio.Semaphore(max_concurrent_jobs)
with max_concurrent_jobs = int(os.getenv("MAX_CONCURRENT_JOBS", "10")), and
_process_job wraps its whole body in `async with self.processing_semaphore`.
A job task therefore goes through four phases: waiting (created, semaphore not
yet acquired, status QUEUED), processing (slot acquired and status set to
PROCESSING in the same atomic stretch), terminalHeld (terminal status written,
slot still held until the async-with block exits), released. -/

def maxConcurrentJobsDefault : Nat := 10

inductive Phase where
  | waiting
  | processing
  | terminalHeld
  | released
deriving DecidableEq

def phaseHolds : Phase → Bool
  | .processing => true
  | .terminalHeld => true
  | .waiting => false
  | .released => false

def phaseProcessing : Phase → Bool
  | .processing => true
  | _ => false

def countTrue (f : Phase → Bool) : List Phase → Nat
  | [] => 0
  | a :: t => (if f a then 1 else 0) + countTrue f t

/-- One scheduler step of the service with global ceiling C.  submit is
create_job (always enabled: it only appends a QUEUED task and returns);
start is the semaphore acquisition (enabled only while fewer than C slots
are held) fused with the PROCESSING status write; finish is the terminal
status write; release is the exit of the async-with block. -/
inductive SchedStep (C : Nat) : List Phase → List Phase → Prop where
  | submit (s : List Phase) : SchedStep C s (s ++ [Phase.waiting])
  | start (s : List Phase) (i : Nat) (h : s[i]? = some Phase.waiting)
      (hc : countTrue phaseHolds s < C) : SchedStep C s (s.set i Phase.processing)
  | finish (s : List Phase) (i : Nat) (h : s[i]? = some Phase.processing) :
      SchedStep C s (s.set i Phase.terminalHeld)
  | release (s : List Phase) (i : Nat) (h : s[i]? = some Phase.terminalHeld) :
      SchedStep C s (s.set i Phase.released)

inductive SchedReach (C : Nat) : List Phase → Prop where
  | init : SchedReach C []
  | next {s t : List Phase} : SchedReach C s → SchedStep C s t → SchedReach C t

/-! ### pdf_processor.py: create_job -/

/-- What create_job observes about its file_path argument: Path.name,
Path.exists() and Path.stat().st_size. -/
structure FileRef where
  name : String
  exists_on_disk : Bool
  size : Nat
deriving DecidableEq

/-- Service state touched by create_job: the jobs registry, the set of
scheduled task ids (asyncio.create_task calls), and the id supply standing in
for uuid4. -/
structure ProcState where
  jobs : List ProcessingJob
  scheduled : List Nat
  nextId : Nat
deriving DecidableEq

/-- The ProcessingJob record built by create_job (lines 100-108):
file_size = file_path.stat().st_size if file_path.exists() else 0. -/
def createdJob (s : ProcState) (f : FileRef) (opts : ProcessingOptions) : ProcessingJob :=
  { id := s.nextId, filename := f.name, file_path := f.name, options := opts,
    status := .queued, progress := 0,
    file_size_bytes := if f.exists_on_disk then f.size else 0,
    result := none, error := none }

/-- create_job (lines 90-119): registers the job, schedules _process_job with
asyncio.create_task, and returns the fresh id.  It performs no validation and
cannot fail. -/
def createJob (s : ProcState) (f : FileRef) (opts : ProcessingOptions) : Nat × ProcState :=
  (s.nextId,
    { jobs := s.jobs ++ [createdJob s f opts],
      scheduled := s.scheduled ++ [s.nextId],
      nextId := s.nextId + 1 })

def findJob (s : ProcState) (i : Nat) : Option ProcessingJob :=
  s.jobs.find? (fun j => j.id == i)

/-! ### auth_service.py: rate limiting

datetime.utcnow() is modelled as a Nat of whole seconds; the hour bucket key
now.strftime of the year-month-day-hour is now / 3600, and the stored
reset_time (now truncated to the hour plus one hour) is (now / 3600 + 1) *
3600.  self.rate_limits is a dict identifier -> dict hour_key -> bucket. -/

structure Bucket where
  count : Nat
  reset_time : Nat
deriving DecidableEq

structure RateLimitInfo where
  requests_remaining : Nat
  requests_limit : Nat
  reset_time : Nat
  retry_after : Option Nat
deriving DecidableEq

structure AuthState where
  rate_limits : List (String × List (Nat × Bucket))
deriving DecidableEq

def hourKey (now : Nat) : Nat := now / 3600

def hourReset (now : Nat) : Nat := (now / 3600 + 1) * 3600

def bucketAt (s : AuthState) (id : String) (h : Nat) : Option Bucket :=
  match alook s.rate_limits id with
  | none => none
  | some m => alook m h

def countAt (s : AuthState) (id : String) (h : Nat) : Nat :=
  match bucketAt s id h with
  | none => 0
  | some b => b.count

/-- AuthenticationService.check_rate_limit (lines 288-309).  Returns the
RateLimitInfo and the (possibly extended) state: when the identifier is
missing the code stores an empty inner dict for it before reading. -/
def checkRateLimit (s : AuthState) (id : String) (limit : Nat) (now : Nat) :
    RateLimitInfo × AuthState :=
  let rl :=
    match alook s.rate_limits id with
    | none => aset s.rate_limits id []
    | some _ => s.rate_limits
  let m := (alook rl id).getD []
  let hd := (alook m (hourKey now)).getD { count := 0, reset_time := hourReset now }
  let remaining := limit - hd.count
  ({ requests_remaining := remaining, requests_limit := limit,
     reset_time := hd.reset_time,
     retry_after := if remaining = 0 then some (hd.reset_time - now) else none },
   { rate_limits := rl })

/-- AuthenticationService.consume_rate_limit (lines 311-325): creates the
identifier entry and the current hour bucket if absent, then increments the
bucket count. -/
def consumeRateLimit (s : AuthState) (id : String) (now : Nat) : AuthState :=
  let rl :=
    match alook s.rate_limits id with
    | none => aset s.rate_limits id []
    | some _ => s.rate_limits
  let m := (alook rl id).getD []
  let m2 :=
    match alook m (hourKey now) with
    | none => aset m (hourKey now) { count := 0, reset_time := hourReset now }
    | some _ => m
  let hd := (alook m2 (hourKey now)).getD { count := 0, reset_time := hourReset now }
  { rate_limits := aset rl id (aset m2 (hourKey now) { hd with count := hd.count + 1 }) }

/-- The update consume_rate_limit applies to the addressed bucket. -/
def bumpBucket (ob : Option Bucket) (now : Nat) : Bucket :=
  match ob with
  | some b => { count := b.count + 1, reset_time := b.reset_time }
  | none => { count := 1, reset_time := hourReset now }

/-- Proof-side abbreviation: the RateLimitInfo computed by check_rate_limit is
a function of the addressed bucket alone. -/
def checkInfoOf (ob : Option Bucket) (limit : Nat) (now : Nat) : RateLimitInfo :=
  let hd := ob.getD { count := 0, reset_time := hourReset now }
  { requests_remaining := limit - hd.count, requests_limit := limit,
    reset_time := hd.reset_time,
    retry_after := if limit - hd.count = 0 then some (hd.reset_time - now) else none }

/-- Decidable form of the bucket well-formedness the code maintains: a stored
bucket for the current hour carries the start of the next hour as reset. -/
def resetTimeOk (s : AuthState) (id : String) (now : Nat) : Bool :=
  match bucketAt s id (hourKey now) with
  | some b => b.reset_time == (hourKey now + 1) * 3600
  | none => true

/-! ### libreoffice_processor.py: the PDF-to-PPT conversion pipeline -/

/-- The two diagnostic substrings convert_pdf_to_ppt and
_convert_with_libreoffice match on (lines 131 and 233). -/
def unsupportedSig (s : String) : Bool :=
  hasSubstr s "no export filter" || hasSubstr s "platform independent libraries"

def hardFailMsg (code : Nat) (stderr : String) : String :=
  "LibreOffice conversion failed (exit code " ++ toString code ++ "): " ++ stderr

def unsupportedMsg (stderr : String) : String :=
  "LibreOffice PDF-to-PPT conversion not supported: " ++ stderr

def noOutputMsg : String :=
  "LibreOffice conversion completed but no PPT file was generated. Conversion failed."

def combinedFailMsg (e ae : String) : String :=
  "PDF to PowerPoint conversion failed. LibreOffice reports: " ++ e ++
    ". Alternative method failed: " ++ ae

def convFailMsg (e : String) : String := "PDF to PPT conversion failed: " ++ e

/-- _convert_with_libreoffice outcome classification (lines 226-236): non-zero
exit raises with the exit code and captured stderr; zero exit whose stderr
contains an unsupported-operation signature raises as well; otherwise ok. -/
def convertWithLibreOffice (exitCode : Nat) (stderr : String) : Except String Unit :=
  if exitCode ≠ 0 then .error (hardFailMsg exitCode stderr)
  else if unsupportedSig stderr then .error (unsupportedMsg stderr)
  else .ok ()

/-- What _validate_pptx_file inspects about a produced file: its byte size,
whether zipfile can open it, and the archive member names. -/
structure Artifact where
  size : Nat
  isZip : Bool
  entries : List String
deriving DecidableEq

/-- _validate_pptx_file (lines 396-421): at least 1 KiB, a readable zip, and
both required PPTX members present. -/
def validatePptxFile (a : Artifact) : Bool :=
  if a.size < 1024 then false
  else if !a.isZip then false
  else a.entries.contains "[Content_Types].xml" && a.entries.contains "ppt/presentation.xml"

/-- The three ways _convert_pdf_to_pptx_alternative can go before its final
validation: pdf2image / python-pptx missing, the PDF-to-image step failing, or
a presentation file being produced. -/
inductive AltOutcome where
  | depsMissing (msg : String)
  | imageConvFailed (msg : String)
  | produced (a : Artifact)
deriving DecidableEq

/-- _convert_pdf_to_pptx_alternative (lines 308-394): the produced file is
validated and a validation failure raises. -/
def altConvert : AltOutcome → Except String Artifact
  | .depsMissing m => .error ("Alternative conversion dependencies missing: " ++ m)
  | .imageConvFailed m => .error ("PDF to image conversion failed: " ++ m)
  | .produced a =>
    if validatePptxFile a then .ok a else .error "Generated PPTX file failed validation"

/-- The data determining one convert_pdf_to_ppt attempt past input validation:
the subprocess exit code and captured stderr, how the alternative strategy
would go if invoked, and the artifact the output-directory glob finds after a
primary-strategy success. -/
structure ConvInput where
  exitCode : Nat
  stderr : String
  alt : AltOutcome
  primaryArtifact : Option Artifact
deriving DecidableEq

structure ConvResult where
  success : Bool
  usedAlternative : Bool
  artifact : Option Artifact
  error : Option String
deriving DecidableEq

/-- convert_pdf_to_ppt (lines 100-207): run the primary subprocess strategy;
on a RuntimeError whose text matches the unsupported signature run the
alternative strategy (combining both messages if it also fails); re-raise
other errors; after a primary success require the glob to find an output
file, with no structural validation on that path.  Every raise is turned into
a success=False dict by the outer except handler. -/
def convertPdfToPpt (inp : ConvInput) : ConvResult :=
  match convertWithLibreOffice inp.exitCode inp.stderr with
  | .ok _ =>
    match inp.primaryArtifact with
    | none =>
      { success := false, usedAlternative := false, artifact := none,
        error := some (convFailMsg noOutputMsg) }
    | some a =>
      { success := true, usedAlternative := false, artifact := some a, error := none }
  | .error e =>
    if unsupportedSig e then
      match altConvert inp.alt with
      | .ok a =>
        { success := true, usedAlternative := true, artifact := some a, error := none }
      | .error ae =>
        { success := false, usedAlternative := true, artifact := none,
          error := some (convFailMsg (combinedFailMsg e ae)) }
    else
      { success := false, usedAlternative := false, artifact := none,
        error := some (convFailMsg e) }

/-! ### Concrete instances referenced by the claim theorems -/

def c1Avail : EngineAvail := ⟨true, false⟩

def c1Opts : ProcessingOptions := { operation := "compress", require_enterprise_compliance := true }

def c2Input : ConvInput :=
  { exitCode := 1, stderr := "Error: no export filter for this format",
    alt := .produced ⟨4096, true, ["[Content_Types].xml", "ppt/presentation.xml"]⟩,
    primaryArtifact := none }

def c2HardInput : ConvInput :=
  { exitCode := 137, stderr := "soffice crashed", alt := .depsMissing "pdf2image",
    primaryArtifact := none }

def c2SoftInput : ConvInput :=
  { exitCode := 0, stderr := "Error: no export filter", alt := .depsMissing "pdf2image",
    primaryArtifact := none }

def c3BadArtifact : Artifact := ⟨10, false, []⟩

def c3Input : ConvInput :=
  { exitCode := 0, stderr := "", alt := .depsMissing "x", primaryArtifact := some c3BadArtifact }

def c3GoodArtifact : Artifact := ⟨2048, true, ["[Content_Types].xml", "ppt/presentation.xml"]⟩

def c3AltInput : ConvInput :=
  { exitCode := 0, stderr := "no export filter found", alt := .produced c3GoodArtifact,
    primaryArtifact := none }

def c5SplitRun : JobRun := ⟨⟨true, true⟩, { operation := "split" }, none, 3⟩

def c5MergeRun : JobRun := ⟨⟨true, true⟩, { operation := "merge" }, none, 5⟩

def c5FailRun : JobRun := ⟨⟨true, true⟩, { operation := "compress" }, some 1, 5⟩

def c7State : AuthState := { rate_limits := [("k", [(2, ⟨2, 10800⟩)])] }

def c10State : ProcState := ⟨[], [], 0⟩

def c10File : FileRef := ⟨"ghost.pdf", false, 0⟩

/-! ## Helper lemmas -/

theorem alook_aset_self {α β : Type} [DecidableEq α] (l : List (α × β)) (a : α) (b : β) :
    alook (aset l a b) a = some b := by
  induction l with
  | nil => simp [aset, alook]
  | cons kv t ih =>
    obtain ⟨k, v⟩ := kv
    by_cases h : k = a
    · subst h; simp [aset, alook]
    · simp [aset, alook, h, ih]

theorem alook_aset_ne {α β : Type} [DecidableEq α] (l : List (α × β)) (a c : α) (b : β)
    (h : c ≠ a) : alook (aset l a b) c = alook l c := by
  induction l with
  | nil => simp [aset, alook, Ne.symm h]
  | cons kv t ih =>
    obtain ⟨k, v⟩ := kv
    by_cases hk : k = a
    · subst hk
      simp [aset, alook, Ne.symm h]
    · simp [aset, alook, hk, ih]

theorem runH_ok_writes : ∀ (evs : List Ev) (f : Option Nat) (p : Nat),
    (runH evs f p).ok = true → (runH evs f p).writes = evWrites evs := by
  intro evs
  induction evs with
  | nil => intro f p _; rfl
  | cons e t ih =>
    intro f p hok
    cases e with
    | write q =>
      simp only [runH, evWrites] at hok ⊢
      exact congrArg (q :: ·) (ih f q hok)
    | pause =>
      simp only [runH, evWrites] at hok ⊢
      exact ih f p hok
    | fallible =>
      cases f with
      | none =>
        simp only [runH, evWrites] at hok ⊢
        exact ih none p hok
      | some n =>
        cases n with
        | zero => simp [runH] at hok
        | succ m =>
          simp only [runH, evWrites] at hok ⊢
          exact ih (some m) p hok

theorem runH_writes_take : ∀ (evs : List Ev) (f : Option Nat) (p : Nat),
    ∃ n, (runH evs f p).writes = (evWrites evs).take n := by
  intro evs
  induction evs with
  | nil => intro f p; exact ⟨0, rfl⟩
  | cons e t ih =>
    intro f p
    cases e with
    | write q =>
      obtain ⟨n, hn⟩ := ih f q
      exact ⟨n + 1, by simp only [runH, evWrites, List.take]; exact congrArg (q :: ·) hn⟩
    | pause =>
      obtain ⟨n, hn⟩ := ih f p
      exact ⟨n, by simp only [runH, evWrites]; exact hn⟩
    | fallible =>
      cases f with
      | none =>
        obtain ⟨n, hn⟩ := ih none p
        exact ⟨n, by simp only [runH, evWrites]; exact hn⟩
      | some n =>
        cases n with
        | zero => exact ⟨0, rfl⟩
        | succ m =>
          obtain ⟨n, hn⟩ := ih (some m) p
          exact ⟨n, by simp only [runH, evWrites]; exact hn⟩

theorem runH_ok_of_not_fallible : ∀ (evs : List Ev) (f : Option Nat) (p : Nat),
    hasFallibleEv evs = false → (runH evs f p).ok = true := by
  intro evs
  induction evs with
  | nil => intro f p _; rfl
  | cons e t ih =>
    intro f p h
    cases e with
    | write q => simp only [hasFallibleEv] at h; simp only [runH]; exact ih f q h
    | pause => simp only [hasFallibleEv] at h; simp only [runH]; exact ih f p h
    | fallible => simp [hasFallibleEv] at h

theorem nonDecr_take : ∀ (l : List Nat) (n : Nat), nonDecr l = true → nonDecr (l.take n) = true := by
  intro l
  induction l with
  | nil => intro n _; simp [List.take_nil, nonDecr]
  | cons a t ih =>
    intro n h
    cases n with
    | zero => rfl
    | succ n =>
      cases t with
      | nil => cases n <;> simp [List.take, nonDecr]
      | cons b t2 =>
        have hab : Nat.ble a b = true ∧ nonDecr (b :: t2) = true := by
          simpa [nonDecr, Bool.and_eq_true] using h
        cases n with
        | zero => simp [List.take, nonDecr]
        | succ n =>
          have htail := ih (n + 1) hab.2
          simp only [List.take] at htail ⊢
          simp [nonDecr, hab.1, htail]

theorem getLastD_append_single {α : Type} : ∀ (l : List α) (x d : α),
    (l ++ [x]).getLastD d = x := by
  intro l
  induction l with
  | nil => intro x d; rfl
  | cons a t ih =>
    intro x d
    simp only [List.cons_append, List.getLastD_cons]
    exact ih x a

theorem handlerEvents_optimize : ∀ (e : ProcessingEngine) (m : Bool),
    handlerEvents .optimize e m = optimizeEvents := by
  intro e m; cases e <;> cases m <;> rfl

theorem handlerWrites_nonDecr : ∀ (h : Handler) (e : ProcessingEngine) (m : Bool),
    nonDecr (evWrites (handlerEvents h e m)) = true := by
  intro h e m; cases h <;> cases e <;> cases m <;> decide

theorem handlerWrites_last : ∀ (h : Handler) (e : ProcessingEngine) (m : Bool),
    (evWrites (handlerEvents h e m)).getLastD 0 = 100 := by
  intro h e m; cases h <;> cases e <;> cases m <;> decide

theorem chainShape : ∀ (ps : List JobStatus) (a fin : JobStatus),
    statusRank a ≤ 1 → (∀ x ∈ ps, x = JobStatus.processing) → isTerminal fin = true →
    monoRank (a :: ps ++ [fin]) = true ∧ terminalOnlyLast (a :: ps ++ [fin]) = true := by
  intro ps
  induction ps with
  | nil =>
    intro a fin ha hps hfin
    cases a <;> cases fin <;>
      simp_all [monoRank, statusRank, terminalOnlyLast, isTerminal]
  | cons p t ih =>
    intro a fin ha hps hfin
    have hp : p = JobStatus.processing := hps p (by simp)
    subst hp
    have ht : ∀ x ∈ t, x = JobStatus.processing := fun x hx => hps x (by simp [hx])
    have ihh := ih JobStatus.processing fin (by simp [statusRank]) ht hfin
    have hnt : isTerminal a = false := by
      cases a <;> simp_all [statusRank, isTerminal]
    have hble : Nat.ble (statusRank a) 1 = true := by
      cases a <;> simp_all [statusRank]
    constructor
    · show (Nat.ble (statusRank a) 1 && monoRank (JobStatus.processing :: (t ++ [fin]))) = true
      rw [hble, Bool.true_and]
      exact ihh.1
    · show (!isTerminal a && terminalOnlyLast (JobStatus.processing :: (t ++ [fin]))) = true
      rw [hnt]
      simp only [Bool.not_false, Bool.true_and]
      exact ihh.2

theorem notQueuedIn : ∀ (ps : List JobStatus) (fin : JobStatus),
    (∀ x ∈ ps, x = JobStatus.processing) → isTerminal fin = true →
    containsStatus (ps ++ [fin]) .queued = false := by
  intro ps
  induction ps with
  | nil =>
    intro fin _ hfin
    cases fin <;> simp_all [containsStatus, isTerminal]
  | cons p t ih =>
    intro fin hps hfin
    have hp : p = JobStatus.processing := hps p (by simp)
    subst hp
    have ht : ∀ x ∈ t, x = JobStatus.processing := fun x hx => hps x (by simp [hx])
    simp only [List.cons_append, containsStatus]
    simp [ih fin ht hfin]

theorem countTrue_append (f : Phase → Bool) : ∀ (l m : List Phase),
    countTrue f (l ++ m) = countTrue f l + countTrue f m := by
  intro l m
  induction l with
  | nil => simp [countTrue]
  | cons a t ih => simp [countTrue, ih]; omega

theorem countTrue_set (f : Phase → Bool) : ∀ (l : List Phase) (i : Nat) (a b : Phase),
    l[i]? = some a →
    countTrue f (l.set i b) + (if f a then 1 else 0) =
      countTrue f l + (if f b then 1 else 0) := by
  intro l
  induction l with
  | nil => intro i a b h; simp at h
  | cons x t ih =>
    intro i a b h
    cases i with
    | zero =>
      simp only [List.getElem?_cons_zero, Option.some.injEq] at h
      subst h
      simp only [List.set, countTrue]
      by_cases hfa : f x <;> by_cases hfb : f b <;> simp [hfa, hfb] <;> omega
    | succ j =>
      simp only [List.getElem?_cons_succ] at h
      have := ih j a b h
      simp only [List.set, countTrue]
      omega

theorem countTrue_mono {f g : Phase → Bool} (hfg : ∀ x, f x = true → g x = true) :
    ∀ (l : List Phase), countTrue f l ≤ countTrue g l := by
  intro l
  induction l with
  | nil => simp [countTrue]
  | cons a t ih =>
    simp only [countTrue]
    by_cases hfa : f a
    · rw [if_pos hfa, if_pos (hfg a hfa)]; omega
    · rw [if_neg hfa]
      by_cases hga : g a <;> simp [hga] <;> omega

theorem schedHolds_le (C : Nat) : ∀ (s : List Phase), SchedReach C s →
    countTrue phaseHolds s ≤ C := by
  intro s h
  induction h with
  | init => simp [countTrue]
  | @next s t hr hs ih =>
    cases hs with
    | submit =>
      rw [countTrue_append]
      simpa [countTrue, phaseHolds] using ih
    | start i h hc =>
      have hset := countTrue_set phaseHolds s i .waiting .processing h
      simp [phaseHolds] at hset
      omega
    | finish i h =>
      have hset := countTrue_set phaseHolds s i .processing .terminalHeld h
      simp [phaseHolds] at hset
      omega
    | release i h =>
      have hset := countTrue_set phaseHolds s i .terminalHeld .released h
      simp [phaseHolds] at hset
      omega

theorem getElem?_append_len {α : Type} : ∀ (l : List α) (x : α),
    (l ++ [x])[l.length]? = some x := by
  intro l x
  induction l with
  | nil => rfl
  | cons a t ih =>
    simp only [List.cons_append, List.length_cons, List.getElem?_cons_succ]
    exact ih

theorem bucketAt_check (s : AuthState) (id : String) (lim now : Nat) (id2 : String) (h : Nat) :
    bucketAt (checkRateLimit s id lim now).2 id2 h = bucketAt s id2 h := by
  unfold checkRateLimit bucketAt
  cases hl : alook s.rate_limits id with
  | some m => simp
  | none =>
    simp only
    by_cases hid : id2 = id
    · subst hid
      rw [alook_aset_self, hl]
      simp [alook]
    · rw [alook_aset_ne _ _ _ _ hid]

theorem checkInfo_eq (s : AuthState) (id : String) (lim now : Nat) :
    (checkRateLimit s id lim now).1 = checkInfoOf (bucketAt s id (hourKey now)) lim now := by
  unfold checkRateLimit checkInfoOf bucketAt
  cases hl : alook s.rate_limits id with
  | some m => simp [hl]
  | none => simp [hl, alook_aset_self, alook]

theorem bucketAt_consume (s : AuthState) (id : String) (now : Nat) (id3 : String) (h3 : Nat) :
    bucketAt (consumeRateLimit s id now) id3 h3 =
      if id3 = id ∧ h3 = hourKey now then some (bumpBucket (bucketAt s id (hourKey now)) now)
      else bucketAt s id3 h3 := by
  unfold consumeRateLimit bucketAt bumpBucket
  by_cases hid : id3 = id
  · subst hid
    cases hl : alook s.rate_limits id3 with
    | none =>
      rw [alook_aset_self]
      simp only [hl, alook_aset_self, Option.getD_some, alook, true_and]
      by_cases hh : h3 = hourKey now
      · subst hh; rw [alook_aset_self]; simp
      · rw [alook_aset_ne _ _ _ _ hh, alook_aset_ne _ _ _ _ hh]
        simp [alook, hh]
    | some m =>
      rw [alook_aset_self]
      simp only [hl, Option.getD_some, true_and]
      cases hm : alook m (hourKey now) with
      | none =>
        by_cases hh : h3 = hourKey now
        · subst hh; rw [alook_aset_self]; simp [alook_aset_self, hm]
        · rw [alook_aset_ne _ _ _ _ hh, alook_aset_ne _ _ _ _ hh]
          simp [hh]
      | some b =>
        by_cases hh : h3 = hourKey now
        · subst hh; rw [alook_aset_self]; simp [hm]
        · rw [alook_aset_ne _ _ _ _ hh]
          simp [hh]
  · cases hl : alook s.rate_limits id with
    | none =>
      rw [alook_aset_ne _ _ _ _ hid, alook_aset_ne _ _ _ _ hid]
      simp [hid]
    | some m =>
      rw [alook_aset_ne _ _ _ _ hid]
      simp [hid]

theorem natSub_cast_max (a b : Nat) : ((a - b : Nat) : Int) = max 0 ((a : Int) - (b : Int)) := by
  rcases le_total b a with h | h
  · have h1 : ((a - b : Nat) : Int) = (a : Int) - (b : Int) := by omega
    rw [h1, max_eq_right]; omega
  · have h1 : ((a - b : Nat) : Int) = 0 := by omega
    rw [h1, max_eq_left]; omega

theorem lt_hour_reset (now : Nat) : 0 < (hourKey now + 1) * 3600 - now := by
  have hm : now % 3600 < 3600 := Nat.mod_lt now (by omega)
  have hd := Nat.div_add_mod now 3600
  unfold hourKey
  omega

theorem altConvert_ok : ∀ (o : AltOutcome) (a : Artifact),
    altConvert o = .ok a → validatePptxFile a = true := by
  intro o a h
  cases o with
  | depsMissing m => simp [altConvert] at h
  | imageConvFailed m => simp [altConvert] at h
  | produced a2 =>
    by_cases hv : validatePptxFile a2
    · simp only [altConvert, if_pos hv, Except.ok.injEq] at h
      subst h; exact hv
    · simp [altConvert, hv] at h

theorem find?_append_none {α : Type} (p : α → Bool) : ∀ (l m : List α),
    l.find? p = none → (l ++ m).find? p = m.find? p := by
  intro l m
  induction l with
  | nil => intro _; rfl
  | cons a t ih =>
    intro h
    cases hpa : p a with
    | true => simp [List.find?, hpa] at h
    | false =>
      simp only [List.find?, hpa] at h
      simp only [List.cons_append, List.find?, hpa]
      exact ih h

/-! ## Claim theorems -/

/-- C1, counterexample: with compliance required, PDFium unavailable and MuPDF
available, _select_engine silently returns the non-compliant MuPDF engine
instead of failing. -/
theorem c1_compliance_silent_fallback :
    c1Opts.require_enterprise_compliance = true ∧
    engineAvailable c1Avail ProcessingEngine.pdfium = false ∧
    selectEngine c1Avail c1Opts = Except.ok ProcessingEngine.mupdf ∧
    ProcessingEngine.mupdf ≠ ProcessingEngine.pdfium := by
  exact ⟨rfl, rfl, rfl, by decide⟩

/-- C1, amended: engine selection follows the priority order compliance+PDFium,
then MuPDF, then PDFium, and fails with the no-engine error exactly when no
engine is available; any returned engine is available. When compliance is
required but PDFium is unavailable it silently falls back to MuPDF. -/
theorem c1_engine_selection_priority : ∀ (a : EngineAvail) (opts : ProcessingOptions),
    (opts.require_enterprise_compliance = true → a.pdfium_available = true →
      selectEngine a opts = .ok .pdfium) ∧
    ((opts.require_enterprise_compliance && a.pdfium_available) = false →
      a.mupdf_available = true → selectEngine a opts = .ok .mupdf) ∧
    (a.mupdf_available = false → a.pdfium_available = true →
      selectEngine a opts = .ok .pdfium) ∧
    (selectEngine a opts = .error noEngineMsg ↔
      a.mupdf_available = false ∧ a.pdfium_available = false) ∧
    (∀ e, selectEngine a opts = .ok e → engineAvailable a e = true) := by
  intro a opts
  obtain ⟨m, p⟩ := a
  cases hc : opts.require_enterprise_compliance <;> cases m <;> cases p <;>
    simp [selectEngine, engineAvailable, hc]

/-- C1 witness: the priority order evaluated at concrete availability states. -/
theorem c1_engine_selection_priority_witness :
    selectEngine ⟨false, true⟩ { } = .ok .pdfium ∧
    selectEngine ⟨true, true⟩ { require_enterprise_compliance := true } = .ok .pdfium ∧
    selectEngine ⟨true, true⟩ { } = .ok .mupdf ∧
    selectEngine ⟨false, false⟩ { } = .error noEngineMsg := by
  refine ⟨(c1_engine_selection_priority ⟨false, true⟩ { }).2.2.1 rfl rfl,
    (c1_engine_selection_priority ⟨true, true⟩ _).1 rfl rfl,
    (c1_engine_selection_priority ⟨true, true⟩ { }).2.1 (by decide) rfl,
    (c1_engine_selection_priority ⟨false, false⟩ { }).2.2.2.1.mpr ⟨rfl, rfl⟩⟩

/-- C9: dispatch is total over operation strings: each of merge, split,
compress, convert selects its own handler; every other string falls through to
the optimize handler, and a job with an unrecognized operation still completes
whenever an engine is available (it is never rejected). -/
theorem c9_dispatch_total : ∀ (op : String),
    (op = "merge" → dispatch op = .merge) ∧
    (op = "split" → dispatch op = .split) ∧
    (op = "compress" → dispatch op = .compress) ∧
    (op = "convert" → dispatch op = .convert) ∧
    (op ≠ "merge" → op ≠ "split" → op ≠ "compress" → op ≠ "convert" →
      dispatch op = .optimize) ∧
    (∀ (m p : Bool) (f : Option Nat) (dp : Nat) (opts : ProcessingOptions),
      opts.operation = op → (m || p) = true → dispatch op = .optimize →
      jobFinalStatus ⟨⟨m, p⟩, opts, f, dp⟩ = .completed) := by
  intro op
  refine ⟨?_, ?_, ?_, ?_, ?_, ?_⟩
  · intro h; simp [dispatch, h]
  · intro h; simp [dispatch, h]
  · intro h; simp [dispatch, h]
  · intro h; simp [dispatch, h]
  · intro h1 h2 h3 h4; simp [dispatch, h1, h2, h3, h4]
  · intro m p f dp opts hop havail hdisp
    have hok : ∃ eng, selectEngine ⟨m, p⟩ opts = Except.ok eng := by
      cases hcp : opts.require_enterprise_compliance <;> cases m <;> cases p <;>
        simp [selectEngine, hcp] <;> simp at havail
    obtain ⟨eng, hsel⟩ := hok
    unfold jobFinalStatus jobRunOut
    simp only [hsel, hop, hdisp, handlerEvents_optimize]
    rw [runH_ok_of_not_fallible optimizeEvents f 0 (by decide)]
    rfl

/-- C9 witness: an unknown operation string runs the optimize handler and the
job completes. -/
theorem c9_dispatch_total_witness :
    dispatch "frobnicate" = .optimize ∧
    jobFinalStatus ⟨⟨true, false⟩, { operation := "frobnicate" }, none, 1⟩ = .completed := by
  have h := c9_dispatch_total "frobnicate"
  have hd := h.2.2.2.2.1 (by decide) (by decide) (by decide) (by decide)
  exact ⟨hd, h.2.2.2.2.2 true false none 1 { operation := "frobnicate" } rfl rfl hd⟩

/-- C10: create_job performs no validation of its input path: even when the
path does not exist it registers a QUEUED job with file_size_bytes = 0 and
progress 0, schedules its execution and returns a fresh job id, instead of
raising. -/
theorem c10_create_job_missing_path : ∀ (s : ProcState) (fr : FileRef)
    (opts : ProcessingOptions),
    fr.exists_on_disk = false →
    (∀ j ∈ s.jobs, j.id < s.nextId) →
    (createJob s fr opts).1 = s.nextId ∧
    findJob s s.nextId = none ∧
    findJob (createJob s fr opts).2 s.nextId = some (createdJob s fr opts) ∧
    (createdJob s fr opts).status = .queued ∧
    (createdJob s fr opts).progress = 0 ∧
    (createdJob s fr opts).file_size_bytes = 0 ∧
    (createJob s fr opts).2.scheduled = s.scheduled ++ [s.nextId] := by
  intro s fr opts hex hfresh
  have hnone : findJob s s.nextId = none := by
    unfold findJob
    rw [List.find?_eq_none]
    intro j hj
    have := hfresh j hj
    simp only [beq_iff_eq]
    omega
  refine ⟨rfl, hnone, ?_, rfl, rfl, by simp [createdJob, hex], rfl⟩
  unfold findJob createJob
  rw [find?_append_none _ _ _ hnone]
  simp [List.find?, createdJob]

/-- C10 witness: creating a job for a nonexistent path in the empty service
state. -/
theorem c10_create_job_missing_path_witness :
    findJob (createJob c10State c10File { }).2 0 = some (createdJob c10State c10File { }) ∧
    (createdJob c10State c10File { }).status = .queued ∧
    (createdJob c10State c10File { }).file_size_bytes = 0 ∧
    (createJob c10State c10File { }).2.scheduled = [0] := by
  have h := c10_create_job_missing_path c10State c10File { } rfl (by simp [c10State])
  exact ⟨h.2.2.1, h.2.2.2.1, h.2.2.2.2.2.1, by simpa using h.2.2.2.2.2.2⟩

/-- C6: in every reachable scheduler state, at most C jobs are simultaneously
in PROCESSING (the semaphore is acquired before the PROCESSING write), and the
submit step is enabled in every state: create_job never waits for a slot and
the new job is registered at the returned index immediately. -/
theorem c6_global_concurrency_bound : ∀ (C : Nat) (s : List Phase), SchedReach C s →
    countTrue phaseProcessing s ≤ C ∧
    SchedStep C s (s ++ [Phase.waiting]) ∧
    (s ++ [Phase.waiting])[s.length]? = some Phase.waiting := by
  intro C s h
  refine ⟨le_trans (countTrue_mono ?_ s) (schedHolds_le C s h), .submit s, getElem?_append_len s _⟩
  intro x hx
  cases x <;> simp_all [phaseProcessing, phaseHolds]

/-- C6 witness: a reachable state with one processing job under the default
ceiling of 10. -/
theorem c6_global_concurrency_bound_witness :
    countTrue phaseProcessing [Phase.processing] ≤ maxConcurrentJobsDefault ∧
    SchedStep maxConcurrentJobsDefault [Phase.processing]
      ([Phase.processing] ++ [Phase.waiting]) := by
  have h1 : SchedReach maxConcurrentJobsDefault ([] ++ [Phase.waiting]) :=
    SchedReach.next SchedReach.init (SchedStep.submit [])
  have h2 : SchedReach maxConcurrentJobsDefault [Phase.processing] :=
    SchedReach.next h1 (SchedStep.start [Phase.waiting] 0 rfl (by decide))
  have h := c6_global_concurrency_bound maxConcurrentJobsDefault [Phase.processing] h2
  exact ⟨h.1, h.2.1⟩

/-- C7: rate-governor arithmetic.  check reports remaining = max(0, limit -
count) for the current hour bucket; with the bucket count at exactly the
limit it reports remaining 0 and a positive retryAfter equal to the seconds
until the start of the next hour; with no bucket stored for the current hour
(after a rollover) remaining resets to the limit; consume increments the
current bucket count by one, creating the bucket if absent. -/
theorem c7_rate_governor_arithmetic : ∀ (s : AuthState) (id : String) (lim now : Nat),
    ((checkRateLimit s id lim now).1.requests_remaining : Int) =
      max 0 ((lim : Int) - (countAt s id (hourKey now) : Int)) ∧
    (resetTimeOk s id now = true → countAt s id (hourKey now) = lim →
      (checkRateLimit s id lim now).1.requests_remaining = 0 ∧
      (checkRateLimit s id lim now).1.retry_after = some ((hourKey now + 1) * 3600 - now) ∧
      0 < (hourKey now + 1) * 3600 - now) ∧
    (bucketAt s id (hourKey now) = none →
      (checkRateLimit s id lim now).1.requests_remaining = lim) ∧
    countAt (consumeRateLimit s id now) id (hourKey now) = countAt s id (hourKey now) + 1 ∧
    (bucketAt (consumeRateLimit s id now) id (hourKey now)).isSome = true := by
  intro s id lim now
  have hinfo := checkInfo_eq s id lim now
  have hcons := bucketAt_consume s id now id (hourKey now)
  rw [if_pos (show id = id ∧ hourKey now = hourKey now from ⟨rfl, rfl⟩)] at hcons
  refine ⟨?_, ?_, ?_, ?_, ?_⟩
  · rw [hinfo]
    unfold checkInfoOf countAt
    cases hb : bucketAt s id (hourKey now) <;> simp [hb, natSub_cast_max]
  · intro hreset hcount
    have hrem : (checkRateLimit s id lim now).1.requests_remaining = 0 := by
      rw [hinfo]
      unfold checkInfoOf
      unfold countAt at hcount
      cases hb : bucketAt s id (hourKey now) <;> simp [hb] at hcount ⊢ <;> omega
    refine ⟨hrem, ?_, lt_hour_reset now⟩
    rw [hinfo]
    unfold checkInfoOf
    unfold countAt at hcount
    unfold resetTimeOk at hreset
    cases hb : bucketAt s id (hourKey now) with
    | none =>
      simp only [hb] at hcount
      simp [hb, Option.getD, ← hcount, hourReset, hourKey]
    | some b =>
      simp only [hb] at hcount hreset
      have hr : b.reset_time = (hourKey now + 1) * 3600 := by
        simpa using hreset
      simp [hb, ← hcount, hr]
  · intro hb
    rw [hinfo]
    unfold checkInfoOf
    simp [hb, hourReset]
  · unfold countAt
    rw [hcons]
    unfold bumpBucket
    cases hb : bucketAt s id (hourKey now) <;> simp [hb]
  · rw [hcons]; rfl

/-- C7 witness: a saturated bucket (count 2, limit 2) in hour 2, checked at
t = 7300 s, and a consume on the same state; plus a rolled-over check for an
identifier with no current bucket. -/
theorem c7_rate_governor_arithmetic_witness :
    (checkRateLimit c7State "k" 2 7300).1.requests_remaining = 0 ∧
    (checkRateLimit c7State "k" 2 7300).1.retry_after = some ((hourKey 7300 + 1) * 3600 - 7300) ∧
    countAt (consumeRateLimit c7State "k" 7300) "k" (hourKey 7300) =
      countAt c7State "k" (hourKey 7300) + 1 ∧
    (checkRateLimit c7State "j" 5 7300).1.requests_remaining = 5 := by
  have h := c7_rate_governor_arithmetic c7State "k" 2 7300
  have h2 := h.2.1 (by decide) (by decide)
  have hj := (c7_rate_governor_arithmetic c7State "j" 5 7300).2.2.1 (by decide)
  exact ⟨h2.1, h2.2.1, h.2.2.2.1, hj⟩

/-- C8: check_rate_limit is observationally side-effect-free: it modifies no
stored bucket (the only state change is inserting an empty inner dict for a
previously unseen identifier), and the result of every subsequent check and
every subsequent consume is unchanged by having run it. -/
theorem c8_check_side_effect_free : ∀ (s : AuthState) (id : String) (lim now : Nat),
    (∀ (id2 : String) (h : Nat),
      bucketAt (checkRateLimit s id lim now).2 id2 h = bucketAt s id2 h) ∧
    (∀ (id2 : String) (lim2 now2 : Nat),
      (checkRateLimit (checkRateLimit s id lim now).2 id2 lim2 now2).1 =
        (checkRateLimit s id2 lim2 now2).1) ∧
    (∀ (id2 : String) (now2 : Nat) (id3 : String) (h3 : Nat),
      bucketAt (consumeRateLimit (checkRateLimit s id lim now).2 id2 now2) id3 h3 =
        bucketAt (consumeRateLimit s id2 now2) id3 h3) := by
  intro s id lim now
  refine ⟨fun id2 h => bucketAt_check s id lim now id2 h, ?_, ?_⟩
  · intro id2 lim2 now2
    rw [checkInfo_eq, checkInfo_eq, bucketAt_check]
  · intro id2 now2 id3 h3
    rw [bucketAt_consume, bucketAt_consume, bucketAt_check, bucketAt_check]

/-- C2, counterexample: a non-zero exit (code 1) whose stderr contains the
"no export filter" signature is not a hard failure with no alternative
attempted: the outer handler matches the signature inside the raised message
and runs the alternative strategy, which can even succeed. -/
theorem c2_nonzero_exit_triggers_alternative :
    c2Input.exitCode ≠ 0 ∧
    (convertPdfToPpt c2Input).usedAlternative = true ∧
    (convertPdfToPpt c2Input).success = true := by
  refine ⟨by decide, by decide, by decide⟩

/-- C2, amended: a non-zero exit raises an error carrying the exit code and
the captured stderr; the alternative strategy runs exactly when the raised
primary error text (whatever the exit code) matches the unsupported-operation
signature; a non-matching failure is reported immediately with no alternative
attempt; if the alternative also fails, the surfaced error cites both
causes. -/
theorem c2_failure_classification : ∀ (inp : ConvInput),
    (inp.exitCode ≠ 0 →
      convertWithLibreOffice inp.exitCode inp.stderr =
        .error (hardFailMsg inp.exitCode inp.stderr)) ∧
    ((convertPdfToPpt inp).usedAlternative = true ↔
      ∃ e, convertWithLibreOffice inp.exitCode inp.stderr = .error e ∧
        unsupportedSig e = true) ∧
    (∀ e, convertWithLibreOffice inp.exitCode inp.stderr = .error e →
      unsupportedSig e = false →
      convertPdfToPpt inp =
        { success := false, usedAlternative := false, artifact := none,
          error := some (convFailMsg e) }) ∧
    (∀ e ae, convertWithLibreOffice inp.exitCode inp.stderr = .error e →
      unsupportedSig e = true → altConvert inp.alt = .error ae →
      convertPdfToPpt inp =
        { success := false, usedAlternative := true, artifact := none,
          error := some (convFailMsg (combinedFailMsg e ae)) }) := by
  intro inp
  refine ⟨?_, ?_, ?_, ?_⟩
  · intro h
    unfold convertWithLibreOffice
    rw [if_pos h]
  · unfold convertPdfToPpt
    cases hc : convertWithLibreOffice inp.exitCode inp.stderr with
    | ok u =>
      cases inp.primaryArtifact <;> simp
    | error e =>
      dsimp only
      by_cases hs : unsupportedSig e = true
      · rw [if_pos hs]
        cases halt : altConvert inp.alt with
        | ok a => exact ⟨fun _ => ⟨e, rfl, hs⟩, fun _ => rfl⟩
        | error ae => exact ⟨fun _ => ⟨e, rfl, hs⟩, fun _ => rfl⟩
      · rw [if_neg hs]
        constructor
        · intro h; simp at h
        · rintro ⟨e2, he2, hs2⟩
          injection he2 with he2
          subst he2
          exact absurd hs2 hs
  · intro e hc hs
    unfold convertPdfToPpt
    rw [hc]
    simp [hs]
  · intro e ae hc hs halt
    unfold convertPdfToPpt
    rw [hc]
    simp [hs, halt]

/-- C2 witness: a crash without the signature is reported immediately with the
exit code and stderr and no alternative attempt; a zero-exit run whose stderr
matches the signature goes to the alternative, and when that fails too the
surfaced error carries both causes. -/
theorem c2_failure_classification_witness :
    convertWithLibreOffice 137 "soffice crashed" = .error (hardFailMsg 137 "soffice crashed") ∧
    convertPdfToPpt c2HardInput =
      { success := false, usedAlternative := false, artifact := none,
        error := some (convFailMsg (hardFailMsg 137 "soffice crashed")) } ∧
    convertPdfToPpt c2SoftInput =
      { success := false, usedAlternative := true, artifact := none,
        error := some (convFailMsg (combinedFailMsg (unsupportedMsg "Error: no export filter")
          ("Alternative conversion dependencies missing: " ++ "pdf2image"))) } := by
    have hhard := c2_failure_classification c2HardInput
    have hsoft := c2_failure_classification c2SoftInput
    refine ⟨hhard.1 (by decide), ?_, ?_⟩
    · exact hhard.2.2.1 (hardFailMsg 137 "soffice crashed") (hhard.1 (by decide)) (by decide)
    · exact hsoft.2.2.2 (unsupportedMsg "Error: no export filter")
        ("Alternative conversion dependencies missing: " ++ "pdf2image")
        rfl (by decide) rfl

/-- C3, counterexample: a primary-strategy success is reported successful as
soon as the output glob finds a file, with no structural validation: here the
found artifact is 10 bytes and not a zip, fails validation, and the
conversion still reports success. -/
theorem c3_primary_success_skips_validation :
    (convertPdfToPpt c3Input).success = true ∧
    (convertPdfToPpt c3Input).artifact = some c3BadArtifact ∧
    validatePptxFile c3BadArtifact = false := by
  refine ⟨by decide, by decide, by decide⟩

/-- C3, amended: structural validation gates success only on the alternative
strategy: a successful conversion that used the alternative carries an
artifact that passed _validate_pptx_file; a successful primary conversion
only guarantees that the glob found an output artifact, which is surfaced
unvalidated. -/
theorem c3_validation_only_on_alternative : ∀ (inp : ConvInput),
    ((convertPdfToPpt inp).success = true → (convertPdfToPpt inp).usedAlternative = true →
      ∃ a, (convertPdfToPpt inp).artifact = some a ∧ validatePptxFile a = true) ∧
    ((convertPdfToPpt inp).success = true → (convertPdfToPpt inp).usedAlternative = false →
      ∃ a, inp.primaryArtifact = some a ∧ (convertPdfToPpt inp).artifact = some a) := by
  intro inp
  unfold convertPdfToPpt
  cases hc : convertWithLibreOffice inp.exitCode inp.stderr with
  | ok u =>
    cases hp : inp.primaryArtifact with
    | none => simp
    | some a => simp
  | error e =>
    dsimp only
    by_cases hs : unsupportedSig e = true
    · rw [if_pos hs]
      cases halt : altConvert inp.alt with
      | ok a =>
        constructor
        · intro _ _
          exact ⟨a, rfl, altConvert_ok inp.alt a halt⟩
        · intro _ h
          simp at h
      | error ae => simp
    · rw [if_neg hs]
      simp

/-- C3 witness: an alternative-strategy success whose artifact passed the
structural validation. -/
theorem c3_validation_only_on_alternative_witness :
    (convertPdfToPpt c3AltInput).artifact = some c3GoodArtifact ∧
    validatePptxFile c3GoodArtifact = true := by
  obtain ⟨a, ha, hv⟩ :=
    (c3_validation_only_on_alternative c3AltInput).1 (by decide) (by decide)
  have hA : (convertPdfToPpt c3AltInput).artifact = some c3GoodArtifact := by decide
  rw [hA] at ha
  injection ha with ha2
  subst ha2
  exact ⟨hA, hv⟩

/-- C4: the job status field moves only along QUEUED, PROCESSING, then exactly
one of COMPLETED or FAILED: create_job initializes every job to QUEUED with
progress 0; the write sequence of _process_job is a chain of allowed
transitions containing PROCESSING; along the observable trace the status rank
never decreases, a terminal status appears only as the final (absorbing)
state, and QUEUED is never re-entered. -/
theorem c4_job_status_lifecycle : ∀ (s : ProcState) (fr : FileRef)
    (opts : ProcessingOptions) (r : JobRun),
    (createdJob s fr opts).status = .queued ∧
    (createdJob s fr opts).progress = 0 ∧
    chainOk (jobStatusWrites r) = true ∧
    containsStatus (jobStatusWrites r) .processing = true ∧
    (traceStatuses r).head? = some .queued ∧
    monoRank (traceStatuses r) = true ∧
    terminalOnlyLast (traceStatuses r) = true ∧
    isTerminal ((traceStatuses r).getLastD .queued) = true ∧
    containsStatus ((traceStatuses r).drop 1) .queued = false := by
  intro s fr opts r
  have hfin : isTerminal (jobFinalStatus r) = true := by
    unfold jobFinalStatus
    cases (jobRunOut r).ok <;> rfl
  have htr : traceStatuses r =
      JobStatus.queued ::
        ((jobRunOut r).observed.map (fun _ => JobStatus.processing) ++ [jobFinalStatus r]) := by
    unfold traceStatuses processJobTrace
    simp [List.map_map, Function.comp]
  have hps : ∀ x ∈ (jobRunOut r).observed.map (fun _ => JobStatus.processing),
      x = JobStatus.processing := by
    intro x hx
    rcases List.mem_map.mp hx with ⟨y, _, hxy⟩
    exact hxy.symm
  have hshape := chainShape ((jobRunOut r).observed.map (fun _ => JobStatus.processing))
    JobStatus.queued (jobFinalStatus r) (by simp [statusRank]) hps hfin
  refine ⟨rfl, rfl, ?_, ?_, ?_, ?_, ?_, ?_, ?_⟩
  · unfold jobStatusWrites jobFinalStatus
    cases (jobRunOut r).ok <;> decide
  · unfold jobStatusWrites jobFinalStatus
    cases (jobRunOut r).ok <;> decide
  · rw [htr]; rfl
  · rw [htr]; exact hshape.1
  · rw [htr]; exact hshape.2
  · rw [htr, List.getLastD_cons, getLastD_append_single]
    exact hfin
  · rw [htr]
    exact notQueuedIn _ _ hps hfin

/-- C5, counterexample: _split_pdf sleeps after its final progress write, so
the observable trace of a split job contains a state with status PROCESSING
and progress 100; progress = 100 therefore does not imply status = COMPLETED,
refuting the claimed biconditional. -/
theorem c5_processing_observable_at_full_progress :
    (processJobTrace c5SplitRun).contains (JobStatus.processing, 100) = true ∧
    JobStatus.processing ≠ JobStatus.completed := by
  exact ⟨by decide, by decide⟩

/-- C5, amended: the progress writes of every job run are non-decreasing; on
the PROCESSING to COMPLETED transition progress is 100 and the result is
attached; on PROCESSING to FAILED progress keeps its last reported value,
which in every failure path of the code is strictly below 100.  However a job
can be observed in PROCESSING with progress already 100 (split handler), so
progress = 100 only if COMPLETED fails in the reverse direction. -/
theorem c5_progress_invariants : ∀ (r : JobRun),
    nonDecr (jobRunOut r).writes = true ∧
    (jobFinalStatus r = .completed →
      jobFinalProgress r = 100 ∧ (jobResult r).isSome = true) ∧
    (jobFinalStatus r = .failed → jobFinalProgress r < 100) := by
  intro r
  rcases hsel : selectEngine r.avail r.options with e | eng
  · have hjr : jobRunOut r = ⟨[], [], false⟩ := by
      unfold jobRunOut; rw [hsel]
    refine ⟨by rw [hjr]; rfl, ?_, ?_⟩
    · intro h
      unfold jobFinalStatus at h
      rw [hjr] at h
      simp at h
    · intro _
      unfold jobFinalProgress
      rw [hjr]
      decide
  · have hjr : jobRunOut r =
        runH (handlerEvents (dispatch r.options.operation) eng r.avail.mupdf_available)
          r.failAt 0 := by
      unfold jobRunOut; rw [hsel]
    refine ⟨?_, ?_, ?_⟩
    · rw [hjr]
      obtain ⟨n, hn⟩ := runH_writes_take
        (handlerEvents (dispatch r.options.operation) eng r.avail.mupdf_available) r.failAt 0
      rw [hn]
      exact nonDecr_take _ n (handlerWrites_nonDecr _ _ _)
    · intro h
      have hok : (jobRunOut r).ok = true := by
        unfold jobFinalStatus at h
        by_cases hb : (jobRunOut r).ok = true
        · exact hb
        · rw [if_neg hb] at h; simp at h
      refine ⟨?_, ?_⟩
      · unfold jobFinalProgress
        rw [hjr] at hok ⊢
        rw [runH_ok_writes _ _ _ hok]
        exact handlerWrites_last _ _ _
      · unfold jobResult
        rw [hsel]
        dsimp only
        rw [hjr] at hok
        rw [if_pos hok]
        rfl
    · intro h
      have hok : (jobRunOut r).ok = false := by
        unfold jobFinalStatus at h
        by_cases hb : (jobRunOut r).ok = true
        · rw [if_pos hb] at h; simp at h
        · simp only [Bool.not_eq_true] at hb; exact hb
      unfold jobFinalProgress
      rw [hjr] at hok ⊢
      revert hok
      generalize hd : dispatch r.options.operation = hh
      generalize hm : r.avail.mupdf_available = m
      cases hf : r.failAt with
      | none =>
        intro hok
        cases hh <;> cases eng <;> cases m <;>
          exact absurd hok (by decide)
      | some k =>
        intro hok
        cases hh <;> cases eng <;> cases m <;>
          first
          | (rw [runH_ok_of_not_fallible _ _ _ (by decide)] at hok; exact absurd hok (by decide))
          | skip
        rcases k with _ | _ | _ | k2
        · decide
        · decide
        · decide
        · have hkk : (runH (handlerEvents Handler.compress ProcessingEngine.mupdf true)
              (some (k2 + 1 + 1 + 1)) 0).ok = true := rfl
          rw [hkk] at hok
          simp at hok

/-- C5 witness: a merge run completes with progress 100 and an attached
result; a MuPDF compression whose doc.save raises fails with progress below
100. -/
theorem c5_progress_invariants_witness :
    jobFinalProgress c5MergeRun = 100 ∧ (jobResult c5MergeRun).isSome = true ∧
    jobFinalProgress c5FailRun < 100 := by
  have h1 := (c5_progress_invariants c5MergeRun).2.1 (by decide)
  have h2 := (c5_progress_invariants c5FailRun).2.2 (by decide)
  exact ⟨h1.1, h1.2, h2⟩

end PDFCraft
